import Mathlib

/-!
Verification of the SIP Core Home Assistant integration
(`custom_components/sip_core`): the config flow, the options flow, the
extension-number pattern used by the tests, and the configuration
validator described by the specification.

JSON-like values submitted through forms are modelled by `Value`; a
Python dict is an association list of string keys (`Fields`), looked up
by first match as in a Python dict whose keys are unique.
-/

namespace SipCore

/-- A JSON-compatible value, as submitted through the options-flow form. -/
inductive Value where
  | nullV : Value
  | boolV : Bool → Value
  | strV : String → Value
  | intV : Int → Value
  | listV : List Value → Value
  | objV : List (String × Value) → Value

/-- A Python dict with string keys: an association list, first match wins. -/
abbrev Fields := List (String × Value)

/-- Key lookup in a dict, as Python `d.get(k)` / `k in d`. -/
def lookupField : Fields → String → Option Value
  | [], _ => none
  | (k, v) :: rest, key => if k = key then some v else lookupField rest key

/-- Whether a value is a dict, as Python `isinstance(x, dict)`. -/
def Value.isObj : Value → Bool
  | .objV _ => true
  | _ => false

/-- Whether a value is a list, as Python `isinstance(x, list)`. -/
def Value.isList : Value → Bool
  | .listV _ => true
  | _ => false

/-- Whether a value is a string, as Python `isinstance(x, str)`. -/
def Value.isStr : Value → Bool
  | .strV _ => true
  | _ => false

/-- The result of a config/options flow step: a (re)displayed form with
its step id and error annotations, a created entry with title and data,
or an abort. Embeds the `async_show_form` / `async_create_entry` /
abort results of `config_flow.py`. -/
inductive FlowResult where
  | showForm : String → List (String × String) → FlowResult
  | createEntry : String → Fields → FlowResult
  | abortFlow : String → FlowResult

/-- Embeds `SipCoreOptionsFlowHandler.async_step_init`
(config_flow.py lines 54-86): on non-None input, if the key
`sip_config` is absent or its value is not a dict, redisplay the init
form with error base `invalid_config`; otherwise create an entry titled
`SIP Core` whose data is the submitted input. On None input, show the
init form with no errors. -/
def optionsFlowStepInit (userInput : Option Fields) : FlowResult :=
  match userInput with
  | some ui =>
    match lookupField ui "sip_config" with
    | some v =>
      if v.isObj then FlowResult.createEntry "SIP Core" ui
      else FlowResult.showForm "init" [("base", "invalid_config")]
    | none => FlowResult.showForm "init" [("base", "invalid_config")]
  | none => FlowResult.showForm "init" []

/-- Embeds `SipCoreConfigFlow.async_step_user`
(config_flow.py lines 19-42): abort when an entry with unique id
`sip_core` is already configured; show the user form on None input;
otherwise create an entry titled `SIP Core` with the input as data
(the empty dict is falsy in Python and takes the explicit empty-data
branch). -/
def configFlowStepUser (alreadyConfigured : Bool) (userInput : Option Fields) :
    FlowResult :=
  if alreadyConfigured then FlowResult.abortFlow "already_configured"
  else
    match userInput with
    | none => FlowResult.showForm "user" []
    | some ui =>
      if ui.isEmpty then FlowResult.createEntry "SIP Core" []
      else FlowResult.createEntry "SIP Core" ui

/-- Embeds the Python dict-merge override of
`test_config_flow.py::test_config_override`:
an expression of the form a merge of base with one key set, keeping the
position of an existing key and appending a new one. -/
def overrideField (fs : Fields) (k : String) (v : Value) : Fields :=
  if (lookupField fs k).isSome then
    fs.map (fun p => if p.1 = k then (k, v) else p)
  else fs ++ [(k, v)]

/-- Whether a character belongs to the regex character class
`[a-zA-Z0-9_-]` of the extension-number pattern. -/
def extChar (c : Char) : Bool :=
  (decide ('a' ≤ c) && decide (c ≤ 'z')) ||
  (decide ('A' ≤ c) && decide (c ≤ 'Z')) ||
  (decide ('0' ≤ c) && decide (c ≤ '9')) ||
  decide (c = '_') || decide (c = '-')

/-- Whether a character list is matched by the body
`[a-zA-Z0-9_-]{1,20}` of the pattern: 1 to 20 characters of the class. -/
def extCore (cs : List Char) : Bool :=
  decide (1 ≤ cs.length) && decide (cs.length ≤ 20) && cs.all extChar

/-- Embeds Python `re.compile(r"^[a-zA-Z0-9_-]{1,20}$").match(s)`
being truthy (test_config_flow.py lines 65-68). The anchors make the
match span the whole string, except that the Python dollar anchor also
matches just before a single newline at the end of the string, so a
body followed by one trailing newline is accepted as well. -/
def reMatchExt (s : String) : Bool :=
  extCore s.data ||
    (match s.data.getLast? with
     | some c => decide (c = '\n') && extCore s.data.dropLast
     | none => false)

/-- The kind of a structured validation error, from the error taxonomy
of the specification. -/
inductive ErrKind where
  | typeKind
  | schemaKind
  | fieldKind
  | patternKind
  | rangeKind
deriving DecidableEq

/-- A structured validation error: a kind plus a message naming the
offending field. -/
structure VError where
  kind : ErrKind
  msg : String
deriving DecidableEq

/-- Modelled from the spec: the extension-number check of the validator,
which is not present under src (only exercised by tests); the spec says
the number is a string matching the whole pattern. -/
def specPatternMatch (s : String) : Bool :=
  extCore s.data

/-- Modelled from the spec: the schema check of one top-level field of
the validator (the validator function itself is absent from src): a
missing key is a schema error naming the field as required, a present
non-sequence value is a schema error saying the field must be an array
(messages as in the shown tests). -/
def fieldSchemaErrors (fs : Fields) (name : String) : List VError :=
  match lookupField fs name with
  | none => [⟨ErrKind.schemaKind, name ++ " field is required"⟩]
  | some v =>
    if v.isList then []
    else [⟨ErrKind.schemaKind, name ++ " must be an array"⟩]

/-- Modelled from the spec: top-level schema errors of the validator,
for the two required sequence fields. -/
def schemaErrors (fs : Fields) : List VError :=
  fieldSchemaErrors fs "extensions" ++ fieldSchemaErrors fs "buttons"

/-- Modelled from the spec: the required-string-field check of one
extension entry: missing or non-string `user`, `password` or `domain`
is a field error naming the entry index and the field. -/
def reqStringErrors (efs : Fields) (i : Nat) (name : String) : List VError :=
  match lookupField efs name with
  | none =>
    [⟨ErrKind.fieldKind, "extension " ++ toString i ++ " missing " ++ name⟩]
  | some v =>
    if v.isStr then []
    else [⟨ErrKind.fieldKind,
           "extension " ++ toString i ++ " " ++ name ++ " must be a string"⟩]

/-- Modelled from the spec: the number check of one extension entry:
a number that is absent, not a string, or not matching the pattern is a
pattern error. -/
def numberErrors (efs : Fields) (i : Nat) : List VError :=
  match lookupField efs "number" with
  | some (Value.strV s) =>
    if specPatternMatch s then []
    else [⟨ErrKind.patternKind,
           "extension " ++ toString i ++ " number is malformed"⟩]
  | _ =>
    [⟨ErrKind.patternKind,
      "extension " ++ toString i ++ " number is malformed"⟩]

/-- Modelled from the spec: all errors of one extension entry; an entry
that is not an object is a field error. -/
def extEntryErrors (i : Nat) (e : Value) : List VError :=
  match e with
  | Value.objV efs =>
    reqStringErrors efs i "user" ++ reqStringErrors efs i "password" ++
      reqStringErrors efs i "domain" ++ numberErrors efs i
  | _ => [⟨ErrKind.fieldKind,
          "extension " ++ toString i ++ " is not an object"⟩]

/-- Modelled from the spec: the per-entry errors of the extensions
sequence, checked only when the field is a sequence (otherwise the
schema stage already reports it). -/
def extensionsErrors (fs : Fields) : List VError :=
  match lookupField fs "extensions" with
  | some (Value.listV xs) =>
    (xs.enum.map (fun p => extEntryErrors p.1 p.2)).flatten
  | _ => []

/-- Modelled from the spec: the heartbeat check of the validator: an
absent `heartbeatIntervalMs` is fine (a default applies), a present
value must be a positive integer, else a range error. -/
def heartbeatErrors (fs : Fields) : List VError :=
  match lookupField fs "heartbeatIntervalMs" with
  | none => []
  | some (Value.intV n) =>
    if 0 < n then []
    else [⟨ErrKind.rangeKind, "heartbeatIntervalMs must be a positive integer"⟩]
  | some _ =>
    [⟨ErrKind.rangeKind, "heartbeatIntervalMs must be a positive integer"⟩]

/-- Modelled from the spec: normalization applies the default by adding
`heartbeatIntervalMs` 30000 when the key is absent, leaving the mapping
unchanged otherwise. -/
def normalize (fs : Fields) : Fields :=
  match lookupField fs "heartbeatIntervalMs" with
  | none => fs ++ [("heartbeatIntervalMs", Value.intV 30000)]
  | some _ => fs

/-- Modelled from the spec: all validation errors of a mapping. -/
def allErrors (fs : Fields) : List VError :=
  schemaErrors fs ++ extensionsErrors fs ++ heartbeatErrors fs

/-- Modelled from the spec: the Configuration Validator
`validate(candidate) -> Result<SipConfiguration, ValidationError>`,
absent from src (the spec derives it from the shown tests): a non-object
input fails with a type error; an object with schema, field, pattern or
range errors fails with that error set; otherwise the normalized
configuration (defaults applied) is returned. -/
def validate : Value → Except (List VError) Value
  | Value.objV fs =>
    match allErrors fs with
    | [] => Except.ok (Value.objV (normalize fs))
    | e :: rest => Except.error (e :: rest)
  | _ => Except.error [⟨ErrKind.typeKind, "not an object"⟩]

/-! Helper lemmas about dict lookup, normalization and the error lists. -/

theorem lookupField_append (fs gs : Fields) (k : String) :
    lookupField (fs ++ gs) k =
      match lookupField fs k with
      | some v => some v
      | none => lookupField gs k := by
  induction fs with
  | nil => simp [lookupField]
  | cons p rest ih =>
    obtain ⟨k1, v1⟩ := p
    by_cases h : k1 = k <;> simp [lookupField, h, ih]

theorem lookupField_normalize (fs : Fields) (k : String)
    (h : k ≠ "heartbeatIntervalMs") :
    lookupField (normalize fs) k = lookupField fs k := by
  unfold normalize
  cases hb : lookupField fs "heartbeatIntervalMs" with
  | some v => rfl
  | none =>
    rw [lookupField_append]
    cases hk : lookupField fs k with
    | some v => rfl
    | none => simp [lookupField, Ne.symm h]

theorem normalize_heartbeat_present (fs : Fields) :
    (lookupField (normalize fs) "heartbeatIntervalMs").isSome = true := by
  unfold normalize
  cases hb : lookupField fs "heartbeatIntervalMs" with
  | some v => simp [hb]
  | none =>
    rw [lookupField_append, hb]
    simp [lookupField]

theorem heartbeatErrors_normalize (fs : Fields) (h : heartbeatErrors fs = []) :
    heartbeatErrors (normalize fs) = [] := by
  unfold normalize
  cases hb : lookupField fs "heartbeatIntervalMs" with
  | some v => exact h
  | none =>
    unfold heartbeatErrors
    rw [lookupField_append, hb]
    simp [lookupField]

theorem schemaErrors_normalize (fs : Fields) :
    schemaErrors (normalize fs) = schemaErrors fs := by
  unfold schemaErrors fieldSchemaErrors
  rw [lookupField_normalize fs "extensions" (by decide),
      lookupField_normalize fs "buttons" (by decide)]

theorem extensionsErrors_normalize (fs : Fields) :
    extensionsErrors (normalize fs) = extensionsErrors fs := by
  unfold extensionsErrors
  rw [lookupField_normalize fs "extensions" (by decide)]

theorem normalize_idem (fs : Fields) : normalize (normalize fs) = normalize fs := by
  have h := normalize_heartbeat_present fs
  cases hb : lookupField (normalize fs) "heartbeatIntervalMs" with
  | none => simp [hb] at h
  | some v =>
    conv_lhs => rw [normalize]
    rw [hb]

theorem allErrors_nil_parts {fs : Fields} (h : allErrors fs = []) :
    schemaErrors fs = [] ∧ extensionsErrors fs = [] ∧ heartbeatErrors fs = [] := by
  unfold allErrors at h
  simpa [List.append_eq_nil] using h

theorem allErrors_normalize {fs : Fields} (h : allErrors fs = []) :
    allErrors (normalize fs) = [] := by
  obtain ⟨h1, h2, h3⟩ := allErrors_nil_parts h
  unfold allErrors
  rw [schemaErrors_normalize, extensionsErrors_normalize,
      heartbeatErrors_normalize fs h3, h1, h2]
  rfl

theorem validate_error_of_mem {fs : Fields} {e : VError}
    (h : e ∈ allErrors fs) :
    ∃ errs, validate (Value.objV fs) = Except.error errs ∧ e ∈ errs := by
  cases hE : allErrors fs with
  | nil => rw [hE] at h; simp at h
  | cons e0 rest =>
    refine ⟨e0 :: rest, ?_, ?_⟩
    · simp [validate, hE]
    · rw [hE] at h
      exact h

theorem extCore_mem {cs : List Char} {c : Char} (h : extCore cs = true)
    (hm : c ∈ cs) : extChar c = true := by
  unfold extCore at h
  simp only [Bool.and_eq_true, List.all_eq_true] at h
  exact h.2 c hm

theorem eq_dropLast_append_of_getLast {cs : List Char} {c : Char}
    (h : cs.getLast? = some c) : cs = cs.dropLast ++ [c] := by
  cases cs with
  | nil => simp at h
  | cons x xs =>
    have hne : x :: xs ≠ [] := by simp
    rw [List.getLast?_eq_getLast _ hne] at h
    have hc : (x :: xs).getLast hne = c := by
      injection h
    rw [← hc, List.dropLast_append_getLast hne]

/-! Theorems about the claims. -/

/-- C1: for every non-None user input mapping submitted to the options
flow, if the key sip_config is absent or its value is not a mapping, the
call redisplays the init form with errors base invalid_config, and no
options entry is created by that call. -/
theorem optionsFlow_invalid_config (ui : Fields)
    (h : ∀ v, lookupField ui "sip_config" = some v → v.isObj = false) :
    optionsFlowStepInit (some ui) =
      FlowResult.showForm "init" [("base", "invalid_config")] := by
  cases hL : lookupField ui "sip_config" with
  | none => simp [optionsFlowStepInit, hL]
  | some v => simp [optionsFlowStepInit, hL, h v hL]

/-- Witness for C1 at the concrete input with sip_config a string. -/
theorem optionsFlow_invalid_config_witness :
    optionsFlowStepInit (some [("sip_config", Value.strV "oops")]) =
      FlowResult.showForm "init" [("base", "invalid_config")] :=
  optionsFlow_invalid_config [("sip_config", Value.strV "oops")]
    (fun v hv => by
      simp [lookupField] at hv
      rw [← hv]
      rfl)

/-- C2: a mapping lacking the buttons key fails validation with a
SchemaKind error whose error set contains the message that the buttons
field is required; symmetrically a missing extensions key, or an
extensions value that is not a sequence, fails with a SchemaKind error
naming the offending field. -/
theorem schema_validation_errors (fs : Fields) :
    (lookupField fs "buttons" = none →
      ∃ errs, validate (Value.objV fs) = Except.error errs ∧
        VError.mk ErrKind.schemaKind "buttons field is required" ∈ errs) ∧
    (lookupField fs "extensions" = none →
      ∃ errs, validate (Value.objV fs) = Except.error errs ∧
        VError.mk ErrKind.schemaKind "extensions field is required" ∈ errs) ∧
    (∀ v, lookupField fs "extensions" = some v → v.isList = false →
      ∃ errs, validate (Value.objV fs) = Except.error errs ∧
        VError.mk ErrKind.schemaKind "extensions must be an array" ∈ errs) := by
  refine ⟨fun hb => ?_, fun he => ?_, fun v hv hl => ?_⟩
  · apply validate_error_of_mem
    simp [allErrors, schemaErrors, fieldSchemaErrors, hb]
  · apply validate_error_of_mem
    simp [allErrors, schemaErrors, fieldSchemaErrors, he]
  · apply validate_error_of_mem
    simp [allErrors, schemaErrors, fieldSchemaErrors, hv, hl]

/-- Witness for C2 at the concrete mapping with extensions only. -/
theorem schema_validation_errors_witness :
    ∃ errs, validate (Value.objV [("extensions", Value.listV [])]) =
        Except.error errs ∧
      VError.mk ErrKind.schemaKind "buttons field is required" ∈ errs :=
  (schema_validation_errors [("extensions", Value.listV [])]).1 rfl

/-- C3: validating the mapping with empty extensions and empty buttons
succeeds, and the normalized result carries heartbeatIntervalMs 30000,
the default applied when the key is absent. -/
theorem validate_applies_heartbeat_default :
    validate (Value.objV [("extensions", Value.listV []),
        ("buttons", Value.listV [])]) =
      Except.ok (Value.objV [("extensions", Value.listV []),
        ("buttons", Value.listV []),
        ("heartbeatIntervalMs", Value.intV 30000)]) ∧
    lookupField [("extensions", Value.listV []), ("buttons", Value.listV []),
        ("heartbeatIntervalMs", Value.intV 30000)] "heartbeatIntervalMs" =
      some (Value.intV 30000) :=
  ⟨rfl, rfl⟩

/-- C4: for every user input whose sip_config value passes the options
flow check (it is a mapping), the created options entry data is the very
same mapping that was submitted, unchanged. -/
theorem optionsFlow_persists_input (ui : Fields) (v : Value)
    (h1 : lookupField ui "sip_config" = some v) (h2 : v.isObj = true) :
    optionsFlowStepInit (some ui) = FlowResult.createEntry "SIP Core" ui := by
  simp [optionsFlowStepInit, h1, h2]

/-- Witness for C4 at a concrete valid submission. -/
theorem optionsFlow_persists_input_witness :
    optionsFlowStepInit (some [("sip_config",
        Value.objV [("extensions", Value.listV []),
          ("buttons", Value.listV [])])]) =
      FlowResult.createEntry "SIP Core" [("sip_config",
        Value.objV [("extensions", Value.listV []),
          ("buttons", Value.listV [])])] :=
  optionsFlow_persists_input _ _ rfl rfl

/-- C5: validation of None or of any non-mapping value fails with a
TypeKind error saying not an object; it never succeeds on such input. -/
theorem validate_non_object (v : Value) (h : v.isObj = false) :
    validate v = Except.error [VError.mk ErrKind.typeKind "not an object"] := by
  cases v <;> first | rfl | simp [Value.isObj] at h

/-- Witness for C5 at the concrete string input. -/
theorem validate_non_object_witness :
    validate (Value.strV "string") =
      Except.error [VError.mk ErrKind.typeKind "not an object"] :=
  validate_non_object (Value.strV "string") rfl

/-- C6 counterexample: the claim states that every string the shown test
lists as invalid fails to match, and that no string exceeding length 20
matches; but the pattern does match the listed string 123-invalid- (all
its characters are in the class and its length is 12), and it matches a
21-character string of twenty class characters followed by a newline,
because the Python dollar anchor also matches before a final newline. -/
theorem extension_pattern_counterexample :
    reMatchExt "123-invalid-" = true ∧
    reMatchExt "aaaaaaaaaaaaaaaaaaaa\n" = true :=
  ⟨by decide, by decide⟩

/-- C6 (amended): every string of length 1 to 20 whose characters are
all drawn from the class matches the pattern; the empty string does not
match, and no string containing an at sign or a hash matches; a string
exceeding length 20 can match only by ending in a newline preceded by a
1-to-20-character class body (the Python dollar anchor accepts one
trailing newline); each string the test lists as valid matches, and of
the strings the test lists as invalid the first three do not match while
123-invalid- does match (the test assertion on it fails on the code). -/
theorem extension_pattern_amended :
    (∀ s : String, 1 ≤ s.length → s.length ≤ 20 →
      s.data.all extChar = true → reMatchExt s = true) ∧
    (∀ s : String, ('@' ∈ s.data ∨ '#' ∈ s.data) → reMatchExt s = false) ∧
    (∀ s : String, 20 < s.length → reMatchExt s = true →
      s.data.getLast? = some '\n' ∧ extCore s.data.dropLast = true) ∧
    (reMatchExt "1001" = true ∧ reMatchExt "2000" = true ∧
      reMatchExt "ext-123" = true ∧ reMatchExt "user_1" = true) ∧
    (reMatchExt "" = false ∧ reMatchExt "invalid@ext" = false ∧
      reMatchExt "ext#123" = false ∧ reMatchExt "123-invalid-" = true) := by
  refine ⟨fun s h1 h2 h3 => ?_, fun s hm => ?_, fun s h20 hr => ?_,
    by decide, by decide⟩
  · have h1a : 1 ≤ s.data.length := h1
    have h2a : s.data.length ≤ 20 := h2
    have hc : extCore s.data = true := by
      unfold extCore
      simp only [Bool.and_eq_true, decide_eq_true_eq]
      exact ⟨⟨h1a, h2a⟩, h3⟩
    simp [reMatchExt, hc]
  · have hd : ∃ d, d ∈ s.data ∧ extChar d = false ∧ d ≠ '\n' := by
      rcases hm with hm | hm
      · exact ⟨_, hm, by decide, by decide⟩
      · exact ⟨_, hm, by decide, by decide⟩
    obtain ⟨d, hdm, hdc, hdn⟩ := hd
    cases hr : reMatchExt s with
    | false => rfl
    | true =>
      exfalso
      unfold reMatchExt at hr
      rw [Bool.or_eq_true] at hr
      rcases hr with hr | hr
      · rw [extCore_mem hr hdm] at hdc
        exact Bool.noConfusion hdc
      · cases hL : s.data.getLast? with
        | none => rw [hL] at hr; simp at hr
        | some c =>
          rw [hL] at hr
          simp only [Bool.and_eq_true, decide_eq_true_eq] at hr
          obtain ⟨hcn, hcore⟩ := hr
          have hsplit := eq_dropLast_append_of_getLast hL
          rw [hsplit] at hdm
          rcases List.mem_append.mp hdm with hmem | hmem
          · rw [extCore_mem hcore hmem] at hdc
            exact Bool.noConfusion hdc
          · have hdcn : d = c := by simpa using hmem
            exact hdn (hdcn.trans hcn)
  · have h20a : 20 < s.data.length := h20
    unfold reMatchExt at hr
    rw [Bool.or_eq_true] at hr
    rcases hr with hr | hr
    · exfalso
      unfold extCore at hr
      simp only [Bool.and_eq_true, decide_eq_true_eq] at hr
      omega
    · cases hL : s.data.getLast? with
      | none => rw [hL] at hr; simp at hr
      | some c =>
        rw [hL] at hr
        simp only [Bool.and_eq_true, decide_eq_true_eq] at hr
        exact ⟨by rw [hr.1], hr.2⟩

/-- C7: validation is idempotent: whenever validation accepts an input
and returns a normalized result, validating that result again succeeds
and returns the same normalized result. -/
theorem validate_idempotent (v w : Value) (h : validate v = Except.ok w) :
    validate w = Except.ok w := by
  cases v with
  | objV fs =>
    simp only [validate] at h
    cases hE : allErrors fs with
    | cons e rest =>
      rw [hE] at h
      exact absurd h (by simp)
    | nil =>
      rw [hE] at h
      simp only [Except.ok.injEq] at h
      rw [← h]
      simp [validate, allErrors_normalize hE, normalize_idem]
  | nullV => exact absurd h (by simp [validate])
  | boolV b => exact absurd h (by simp [validate])
  | strV s => exact absurd h (by simp [validate])
  | intV n => exact absurd h (by simp [validate])
  | listV xs => exact absurd h (by simp [validate])

/-- Witness for C7: applying idempotence to the accepted result of the
empty configuration. -/
theorem validate_idempotent_witness :
    validate (Value.objV [("extensions", Value.listV []),
        ("buttons", Value.listV []),
        ("heartbeatIntervalMs", Value.intV 30000)]) =
      Except.ok (Value.objV [("extensions", Value.listV []),
        ("buttons", Value.listV []),
        ("heartbeatIntervalMs", Value.intV 30000)]) :=
  validate_idempotent
    (Value.objV [("extensions", Value.listV []), ("buttons", Value.listV [])])
    (Value.objV [("extensions", Value.listV []), ("buttons", Value.listV []),
      ("heartbeatIntervalMs", Value.intV 30000)]) rfl

/-- C8: overriding heartbeatIntervalMs to 60000 in a copy built from a
base configuration whose heartbeatIntervalMs is 30000 leaves the
separately held base unchanged: after the override the base still holds
30000 and the override holds 60000. -/
theorem config_override_no_aliasing :
    lookupField (overrideField [("extensions", Value.listV []),
        ("buttons", Value.listV []),
        ("heartbeatIntervalMs", Value.intV 30000)]
        "heartbeatIntervalMs" (Value.intV 60000))
      "heartbeatIntervalMs" = some (Value.intV 60000) ∧
    lookupField [("extensions", Value.listV []), ("buttons", Value.listV []),
        ("heartbeatIntervalMs", Value.intV 30000)]
      "heartbeatIntervalMs" = some (Value.intV 30000) :=
  ⟨rfl, rfl⟩

/-- C9: for every user input whose sip_config value is a dictionary,
whatever its contents (empty, missing extensions or buttons, or wrongly
typed members), the options flow accepts it and creates an entry titled
SIP Core with the submitted input as data; nothing inside the
sip_config dictionary beyond its top-level type is examined. -/
theorem optionsFlow_accepts_any_dict (ui : Fields) (cfg : Fields)
    (h : lookupField ui "sip_config" = some (Value.objV cfg)) :
    optionsFlowStepInit (some ui) = FlowResult.createEntry "SIP Core" ui := by
  simp [optionsFlowStepInit, h, Value.isObj]

/-- Witness for C9 at the empty dictionary, which lacks both extensions
and buttons. -/
theorem optionsFlow_accepts_any_dict_witness :
    optionsFlowStepInit (some [("sip_config", Value.objV [])]) =
      FlowResult.createEntry "SIP Core" [("sip_config", Value.objV [])] :=
  optionsFlow_accepts_any_dict [("sip_config", Value.objV [])] [] rfl

/-- C10: when no entry with unique id sip_core is already configured,
the initial config flow creates an entry titled SIP Core for every
non-None user input, with data equal to the input (the empty mapping
yields empty data); it never returns an error form on non-None input. -/
theorem configFlow_creates_entry (ui : Fields) :
    configFlowStepUser false (some ui) =
      FlowResult.createEntry "SIP Core" ui := by
  cases ui <;> simp [configFlowStepUser]

/-- Witness for C10 at a concrete non-empty input. -/
theorem configFlow_creates_entry_witness :
    configFlowStepUser false (some [("config_url", Value.strV "")]) =
      FlowResult.createEntry "SIP Core" [("config_url", Value.strV "")] :=
  configFlow_creates_entry [("config_url", Value.strV "")]

end SipCore
